import Mathlib

/-!
# Fruit Catcher: a shallow embedding of `src/source/main.cpp`

The program is one translation unit: the globals shared with the mouse
callback (`color_set`, `color_ranges`, `game_state`), the locals of `main`,
the body of the main loop and the mouse callback.

Conventions of the embedding.

* `int` values are `Int`; an `uchar` is an `Int` in `[0, 256)` and the
  implicit narrowing `int -> uchar` is `toUchar v = v % 256`.
* `float` and `double` values are rationals.  Every floating-point operation
  of the source is written as the exact operation followed by a rounding
  function (`f32` for `float`, `f64` for `double`) taken from the `Lib`
  record, so that results hold for every rounding; `f32 = id` is exact real
  arithmetic.  NaN and infinities are not modelled.
* Library calls whose code is not part of the repository are parameters:
  `contourArea` and `minEnclosingCircle` of OpenCV are arguments of the
  tracker step, `sf::Rect::intersects` and the random engine with
  `std::uniform_int_distribution` are fields of `Lib`.  The angle produced by
  the tracker and `std::atan2` is an input of each loop iteration.
-/

namespace FruitCatcher

/-! ## Data model -/

/-- Three-channel pixel: models both `cv::Vec3b` (each channel in `[0, 256)`) and `cv::Vec3i`. -/
structure Vec3 where
  v0 : Int
  v1 : Int
  v2 : Int
deriving DecidableEq, Repr

/-- Channels of a `cv::Vec3b` are bytes. -/
def Vec3.IsByte (c : Vec3) : Prop :=
  (0 ≤ c.v0 ∧ c.v0 < 256) ∧ (0 ≤ c.v1 ∧ c.v1 < 256) ∧ (0 ≤ c.v2 ∧ c.v2 < 256)

instance (c : Vec3) : Decidable c.IsByte := by
  unfold Vec3.IsByte; infer_instance

/-- Implicit conversion `int -> uchar` (reduction modulo 256). -/
def toUchar (v : Int) : Int := v % 256

/-- Constructor `cv::Vec3b(v0, v1, v2)` applied to `int` arguments. -/
def Vec3b (a b c : Int) : Vec3 := ⟨toUchar a, toUchar b, toUchar c⟩

/-- The enumeration `Game_state`. -/
inductive Game_state where
  | SETUP
  | START
  | PLAYING
  | END
deriving DecidableEq, Repr

/-- One entry `color_ranges[i]`: index 0 is the lower bound, index 1 the upper bound. -/
structure ColorRange where
  low : Vec3
  high : Vec3
deriving DecidableEq, Repr

/-- The global variables written by `mouse_callback` (lines 46-51). -/
structure Globals where
  color_set : Fin 2 → Bool
  color_ranges : Fin 2 → ColorRange
  game_state : Game_state

/-- Initial values of the globals: `color_set{false,false}`, zero-initialised
`color_ranges`, `game_state = SETUP`. -/
def Globals.initial : Globals :=
  { color_set := fun _ => false
    color_ranges := fun _ => ⟨⟨0, 0, 0⟩, ⟨0, 0, 0⟩⟩
    game_state := Game_state.SETUP }

/-! ## Colour calibration: `mouse_callback` (lines 318-347) -/

/-- The constant `cv::EVENT_LBUTTONDOWN`. -/
def EVENT_LBUTTONDOWN : Int := 1

/-- Un-narrowed `int` arguments of the `cv::Vec3b` stored in `color_ranges[i][0]` (lines 328-330). -/
def lowArgs (color : Vec3) : Vec3 :=
  ⟨if color.v0 - 8 < 0 then 0 else color.v0 - 8,
   if color.v1 - 80 < 0 then 0 else color.v1 - 80,
   if color.v2 - 80 < 0 then 0 else color.v2 - 80⟩

/-- Un-narrowed `int` arguments of the `cv::Vec3b` stored in `color_ranges[i][1]` (lines 331-333). -/
def highArgs (color : Vec3) : Vec3 :=
  ⟨if color.v0 + 8 > 150 then 255 else color.v0 + 8,
   if color.v1 + 80 > 255 then 255 else color.v1 + 80,
   if color.v2 + 80 > 255 then 255 else color.v2 + 80⟩

/-- The pair of `cv::Vec3b` values assigned to `color_ranges[i]` for the sampled `color`. -/
def windowOf (color : Vec3) : ColorRange :=
  { low := Vec3b (lowArgs color).v0 (lowArgs color).v1 (lowArgs color).v2
    high := Vec3b (highArgs color).v0 (highArgs color).v1 (highArgs color).v2 }

/-- Body of the `if (!color_set[i])` branch for marker `i` (lines 327-338). -/
def assignMarker (color : Vec3) (i : Fin 2) (g : Globals) : Globals :=
  { color_set := Function.update g.color_set i true
    color_ranges := Function.update g.color_ranges i (windowOf color)
    game_state := if i = 1 then Game_state.START else g.game_state }

/-- The loop `for (int i = 0; i < 2; i++)` of `mouse_callback` over the remaining
indices; the first unset marker is assigned and the loop is left (`break`). -/
def captureLoop (color : Vec3) : List (Fin 2) → Globals → Globals
  | [], g => g
  | i :: rest, g =>
    if g.color_set i = false then assignMarker color i g
    else captureLoop color rest g

/-- The function `mouse_callback(event, x, y, flags, userdata)`.  `hsv_img y x` is
`hsv_img.at<cv::Vec3b>(y, x)`, read only inside the branch that assigns a marker. -/
def mouse_callback (hsv_img : Int → Int → Vec3) (event x y _flags : Int) (g : Globals) : Globals :=
  if event ≠ EVENT_LBUTTONDOWN then g
  else captureLoop (hsv_img y x) [0, 1] g

/-! ## Library interface and the locals of `main` -/

/-- The class `sf::Rect<float>` built by `sf::Rect<float>(position, size)`. -/
structure Rect where
  left : ℚ
  top : ℚ
  width : ℚ
  height : ℚ
deriving DecidableEq, Repr

/-- Library operations used by the game logic.  `G` is the state of the random engine
(`std::mt19937`).
* `f32`, `f64`: rounding of an exact result to `float` / `double`;
* `intersects`: `sf::Rect<float>::intersects`;
* `uniform_int a b`: one draw of `std::uniform_int_distribution(a, b)` from the engine;
* `rightToLeft`: the order in which the two draws inside one argument list are
  evaluated, which C++ leaves unspecified. -/
structure Lib (G : Type) where
  f32 : ℚ → ℚ
  f64 : ℚ → ℚ
  intersects : Rect → Rect → Bool
  uniform_int : Nat → Nat → G → Nat × G
  rightToLeft : Bool

/-- The class `Fruit`: the rectangle shape (position, size, texture), `falling_speed`, `caught`.
`tex` is the index in `fruit_tex` of the texture the rectangle points to. -/
structure Fruit where
  pos : ℚ × ℚ
  size : ℚ × ℚ
  tex : Nat
  falling_speed : ℚ
  caught : Bool
deriving DecidableEq, Repr

/-- Constructor `Fruit(tex, speed)` (lines 32-38); a new shape sits at the origin. -/
def Fruit.ctor (tex : Nat) (speed : ℚ) : Fruit :=
  { pos := (0, 0), size := (60, 60), tex := tex, falling_speed := speed, caught := false }

/-- Locals of `main` that the game logic reads or writes.  `clock_start` is the instant at
which `sf::Clock clock` was constructed or last restarted. -/
structure Locals (G : Type) where
  angle : ℚ
  player_pos : ℚ
  score : Int
  time_remaining : ℚ
  clock_start : ℚ
  fruits : List Fruit
  basket_pos : ℚ × ℚ
  window_open : Bool
  rng : G

def fruit_speed_min : Nat := 100
def fruit_speed_max : Nat := 300
def fruit_height_max : Nat := 2000
def time_limit : ℚ := 30
def fruits_num : Nat := 50
def game_window_height : ℚ := 540
def game_window_width : ℚ := 960
/-- Number of textures, `fruit_tex.size()`. -/
def fruit_tex_size : Nat := 8

/-- The `double` constant `M_PI_2` of `<cmath>`. -/
def M_PI_2 : ℚ := 884279719003555 / 562949953421312

/-! ## Marker tracker: largest contour selection (lines 159-176) -/

/-- The loop `for (size_t i = 0; i < contours.size(); i++)` over the contours not yet
visited; `i` is the index of the head, the accumulator is
`(largest_area, largest_contour_index)`. -/
def largestContourLoop {C : Type} (contourArea : C → ℚ) : List C → Nat → ℚ × Nat → ℚ × Nat
  | [], _, acc => acc
  | c :: rest, i, acc =>
    if contourArea c > acc.1 then largestContourLoop contourArea rest (i + 1) (contourArea c, i)
    else largestContourLoop contourArea rest (i + 1) acc

/-- Value of `largest_contour_index` after the loop, from `largest_area = 0` and index `0`. -/
def largest_contour_index {C : Type} (contourArea : C → ℚ) (contours : List C) : Nat :=
  (largestContourLoop contourArea contours 0 (0, 0)).2

/-- Stored `circle_pos[i]` and `circle_radius[i]` of one marker. -/
structure Circle where
  pos : ℚ × ℚ
  radius : ℚ
deriving DecidableEq, Repr

/-- One iteration of the marker loop after `findContours` (lines 159-176): `prev` is the stored
circle of this marker and the result the stored circle afterwards.  `none` stands for
an out-of-range `contours[largest_contour_index]`. -/
def trackMarker {C : Type} (contourArea : C → ℚ) (minEnclosingCircle : C → Circle)
    (contours : List C) (prev : Circle) : Option Circle :=
  if contours.isEmpty then some prev
  else (contours[largest_contour_index contourArea contours]?).map minEnclosingCircle

/-! ## The `PLAYING` case of the main loop (lines 202-256) -/

/-- Assignment to `player_pos` (lines 207-214) over an ordered field `α`; `f32` rounds each
operation and `piHalf` is `float(M_PI_2)`. -/
def player_pos {α : Type} [LinearOrderedField α] (f32 : α → α) (piHalf angle : α) : α :=
  if angle < 0 then f32 (1 / 2 + f32 (1 / 2 * f32 (-angle / piHalf)))
  else f32 (1 / 2 - f32 (1 / 2 * f32 (angle / piHalf)))

/-- Position given to `basket_rect` (line 215). -/
def basketPos {G : Type} (lib : Lib G) (angle : ℚ) : ℚ × ℚ :=
  (lib.f32 (player_pos lib.f32 (lib.f32 M_PI_2) angle * game_window_width),
   lib.f32 (game_window_height - 80))

/-- The box `basket_bounding_box` (line 222); `basket_rect` has size 100 x 100. -/
def basketBox {G : Type} (lib : Lib G) (angle : ℚ) : Rect :=
  ⟨(basketPos lib angle).1, (basketPos lib angle).2, 100, 100⟩

/-- The box `fruit_bounding_box` (line 226). -/
def fruitBox (e : Fruit) : Rect := ⟨e.pos.1, e.pos.2, e.size.1, e.size.2⟩

/-- Fall of one fruit (line 241): the position moves by
`(0.f, falling_speed * 1e-9f * time_elapsed.count())`. -/
def fall {G : Type} (lib : Lib G) (time_elapsed : Int) (e : Fruit) : Fruit :=
  { e with
    pos := (lib.f32 (e.pos.1 + 0),
            lib.f32 (e.pos.2 +
              lib.f32 (lib.f32 (e.falling_speed * lib.f32 (1 / 1000000000))
                * lib.f32 (time_elapsed : ℚ)))) }

/-- Body of the loop `for (Fruit &e : fruits)` (lines 225-241) for one fruit, threading `score`. -/
def fruitStep {G : Type} (lib : Lib G) (basket_bounding_box : Rect) (time_elapsed : Int)
    (e : Fruit) (score : Int) : Fruit × Int :=
  let hit := lib.intersects basket_bounding_box (fruitBox e)
  let r : Fruit × Int :=
    if hit then
      if !e.caught then ({ e with caught := true }, score + 1) else (e, score)
    else (e, score)
  (fall lib time_elapsed r.1, r.2)

/-- The loop `for (Fruit &e : fruits)` (lines 223-243). -/
def fruitLoop {G : Type} (lib : Lib G) (basket_bounding_box : Rect) (time_elapsed : Int) :
    List Fruit → Int → List Fruit × Int
  | [], score => ([], score)
  | e :: rest, score =>
    let r := fruitStep lib basket_bounding_box time_elapsed e score
    let rr := fruitLoop lib basket_bounding_box time_elapsed rest r.2
    (r.1 :: rr.1, rr.2)

/-- What one iteration of the main loop receives from outside: the `angle` computed at
line 179 from the tracked circles, the current instant `now` (seconds) and the count of
nanoseconds `time_elapsed` measured at line 221. -/
structure FrameInput where
  angle : ℚ
  now : ℚ
  time_elapsed : Int
deriving DecidableEq, Repr

/-- The `case Game_state::PLAYING` block. -/
def playingCase {G : Type} (lib : Lib G) (inp : FrameInput) (g : Globals) (m : Locals G) :
    Globals × Locals G :=
  let time_remaining := lib.f64 (time_limit - lib.f32 (inp.now - m.clock_start))
  let r := fruitLoop lib (basketBox lib m.angle) inp.time_elapsed m.fruits m.score
  ({ g with game_state := if time_remaining ≤ 0 then Game_state.END else g.game_state },
   { m with
     time_remaining := time_remaining
     player_pos := player_pos lib.f32 (lib.f32 M_PI_2) m.angle
     basket_pos := basketPos lib m.angle
     fruits := r.1
     score := r.2 })

/-- Lines 179-264 of the loop body: `angle` is assigned, then the `switch (game_state)`; the
cases other than `PLAYING` only draw text. -/
def updateFrame {G : Type} (lib : Lib G) (inp : FrameInput) (s : Globals × Locals G) :
    Globals × Locals G :=
  let m : Locals G := { s.2 with angle := inp.angle }
  match s.1.game_state with
  | Game_state.PLAYING => playingCase lib inp s.1 m
  | _ => (s.1, m)

/-- Successive iterations of the loop body with no window event in between. -/
def runFrames {G : Type} (lib : Lib G) : List FrameInput → Globals × Locals G → Globals × Locals G
  | [], s => s
  | inp :: rest, s => runFrames lib rest (updateFrame lib inp s)

/-- The collision tests made along a run: for every iteration that enters the `PLAYING`
case, the basket box tested against the fruits and the time step applied after it. -/
def collisionTests {G : Type} (lib : Lib G) :
    List FrameInput → Globals × Locals G → List (Rect × Int)
  | [], _ => []
  | inp :: rest, s =>
    (match s.1.game_state with
      | Game_state.PLAYING => [(basketBox lib inp.angle, inp.time_elapsed)]
      | _ => [])
    ++ collisionTests lib rest (updateFrame lib inp s)

/-- Whether the box of fruit `e` intersects the basket box at one of the collision tests,
the fruit falling after each test. -/
def everOverlaps {G : Type} (lib : Lib G) : List (Rect × Int) → Fruit → Bool
  | [], _ => false
  | t :: rest, e =>
    lib.intersects t.1 (fruitBox e) || everOverlaps lib rest (fall lib t.2 e)

/-! ## Window events (lines 273-307) -/

/-- The kinds of `sf::Event` the loop distinguishes. -/
inductive EventType where
  | Closed
  | KeyPressed
  | Other
deriving DecidableEq, Repr

/-- One polled event with the instant at which it is handled and the value of
`sf::Keyboard::isKeyPressed(sf::Keyboard::Space)` at that instant. -/
structure Event where
  type : EventType
  spaceDown : Bool
  now : ℚ
deriving DecidableEq, Repr

/-- Lines 295-297: one fruit is built, placed and returned with the engine state. -/
def spawnFruit {G : Type} (lib : Lib G) (rng : G) : Fruit × G :=
  let tex_dist := lib.uniform_int 0 (fruit_tex_size - 1)
  let pos_x_dist := lib.uniform_int 0 960
  let pos_y_dist := lib.uniform_int 1 fruit_height_max
  let speed_dist := lib.uniform_int fruit_speed_min fruit_speed_max
  let a : (Nat × Nat) × G :=
    if lib.rightToLeft then
      let s := speed_dist rng
      let t := tex_dist s.2
      ((t.1, s.1), t.2)
    else
      let t := tex_dist rng
      let s := speed_dist t.2
      ((t.1, s.1), s.2)
  let fruit := Fruit.ctor a.1.1 (lib.f32 (a.1.2 : ℚ))
  let b : (Nat × Nat) × G :=
    if lib.rightToLeft then
      let y := pos_y_dist a.2
      let x := pos_x_dist y.2
      ((x.1, y.1), x.2)
    else
      let x := pos_x_dist a.2
      let y := pos_y_dist x.2
      ((x.1, y.1), y.2)
  ({ fruit with pos := (lib.f32 (b.1.1 : ℚ), lib.f32 (0 - lib.f32 (b.1.2 : ℚ))) }, b.2)

/-- The loop `for (int i = 0; i < fruits_num; i++)` with `n` iterations left (lines 293-298). -/
def spawnLoop {G : Type} (lib : Lib G) : Nat → List Fruit → G → List Fruit × G
  | 0, fruits, rng => (fruits, rng)
  | n + 1, fruits, rng =>
    let r := spawnFruit lib rng
    spawnLoop lib n (fruits ++ [r.1]) r.2

/-- Body of `if (sf::Keyboard::isKeyPressed(sf::Keyboard::Space))` (lines 282-304): two
successive `if` statements on `game_state`. -/
def spaceKey {G : Type} (lib : Lib G) (now : ℚ) (s : Globals × Locals G) : Globals × Locals G :=
  let s1 : Globals × Locals G :=
    if s.1.game_state = Game_state.START then
      let r := spawnLoop lib fruits_num [] s.2.rng
      ({ s.1 with game_state := Game_state.PLAYING },
       { s.2 with clock_start := now, score := 0, fruits := r.1, rng := r.2 })
    else s
  if s1.1.game_state = Game_state.END then
    ({ s1.1 with game_state := Game_state.START }, s1.2)
  else s1

/-- Body of the loop `while (game_window.pollEvent(event))` for one event. -/
def handleEvent {G : Type} (lib : Lib G) (ev : Event) (s : Globals × Locals G) :
    Globals × Locals G :=
  match ev.type with
  | EventType.Closed => (s.1, { s.2 with window_open := false })
  | EventType.KeyPressed => if ev.spaceDown then spaceKey lib ev.now s else s
  | EventType.Other => s

/-- The properties of a freshly spawned fruit: not caught, size 60 x 60, a valid texture
index, `x` in `[0, 960]`, `y` in `[-2000, -1]`, fall speed in `[100, 300]`. -/
def Fruit.FreshlySpawned (e : Fruit) : Prop :=
  e.caught = false ∧ e.size = (60, 60) ∧ e.tex < fruit_tex_size ∧
  (0 ≤ e.pos.1 ∧ e.pos.1 ≤ 960) ∧ (-2000 ≤ e.pos.2 ∧ e.pos.2 ≤ -1) ∧
  (100 ≤ e.falling_speed ∧ e.falling_speed ≤ 300)

/-! ## Concrete instances used to exercise the definitions -/

/-- The algorithm of `sf::Rect<T>::intersects` in exact arithmetic. -/
def sfmlIntersects (r1 r2 : Rect) : Bool :=
  let interLeft := max (min r1.left (r1.left + r1.width)) (min r2.left (r2.left + r2.width))
  let interTop := max (min r1.top (r1.top + r1.height)) (min r2.top (r2.top + r2.height))
  let interRight := min (max r1.left (r1.left + r1.width)) (max r2.left (r2.left + r2.width))
  let interBottom := min (max r1.top (r1.top + r1.height)) (max r2.top (r2.top + r2.height))
  decide (interLeft < interRight) && decide (interTop < interBottom)

/-- Exact arithmetic and a counter-based random engine: a draw from `[a, b]` is
`a + g % (b - a + 1)` and the engine state advances by 7. -/
def exactLib : Lib Nat :=
  { f32 := id
    f64 := id
    intersects := sfmlIntersects
    uniform_int := fun a b g => (a + g % (b - a + 1), g + 7)
    rightToLeft := false }

/-- A round in progress: calibrated markers, state `PLAYING`, score 0 and three fruits,
the first one already level with the basket. -/
def demoPlaying : Globals × Locals Nat :=
  ({ color_set := fun _ => true
     color_ranges := fun _ => ⟨⟨0, 0, 0⟩, ⟨8, 80, 80⟩⟩
     game_state := Game_state.PLAYING },
   { angle := 0, player_pos := 0, score := 0, time_remaining := 0, clock_start := 0
     fruits := [{ Fruit.ctor 0 100 with pos := (500, 450) },
                { Fruit.ctor 1 100 with pos := (0, 450) },
                { Fruit.ctor 2 300 with pos := (500, 0) }]
     basket_pos := (0, 0), window_open := true, rng := 12345 })

/-- Three iterations with the markers level (`angle = 0`) and a time step of 0.1 s. -/
def demoInputs : List FrameInput :=
  [⟨0, 1, 100000000⟩, ⟨0, 2, 100000000⟩, ⟨0, 3, 100000000⟩]

/-- A session waiting in `START` with the score and batch of a previous round. -/
def demoStart : Globals × Locals Nat :=
  ({ demoPlaying.1 with game_state := Game_state.START }, { demoPlaying.2 with score := 7 })

/-- Four contours given by their areas; the largest area 5 occurs at indices 1 and 2. -/
def demoContours : List ℚ := [2, 5, 5, 1]

/-! ## Calibration lemmas -/

theorem toUchar_of_byte (v : Int) (h0 : 0 ≤ v) (h1 : v < 256) : toUchar v = v := by
  unfold toUchar; omega

theorem captureLoop_first (color : Vec3) (g : Globals) (h : g.color_set 0 = false) :
    captureLoop color [0, 1] g = assignMarker color 0 g := by
  simp [captureLoop, h]

theorem captureLoop_second (color : Vec3) (g : Globals) (h0 : g.color_set 0 = true)
    (h1 : g.color_set 1 = false) :
    captureLoop color [0, 1] g = assignMarker color 1 g := by
  simp [captureLoop, h0, h1]

theorem captureLoop_done (color : Vec3) (g : Globals) (h0 : g.color_set 0 = true)
    (h1 : g.color_set 1 = true) :
    captureLoop color [0, 1] g = g := by
  simp [captureLoop, h0, h1]

/-- Whichever marker is the first unset one, a left click stores `windowOf` of the sample in it. -/
theorem mouse_callback_stores (hsv_img : Int → Int → Vec3) (x y flags : Int) (g : Globals)
    (i : Fin 2) (hi : g.color_set i = false) (hprev : ∀ j : Fin 2, j < i → g.color_set j = true) :
    (mouse_callback hsv_img EVENT_LBUTTONDOWN x y flags g).color_ranges i
      = windowOf (hsv_img y x) := by
  unfold mouse_callback
  simp only [ne_eq, not_true_eq_false, if_false]
  fin_cases i
  · rw [captureLoop_first _ _ hi]; simp [assignMarker]
  · have h0 : g.color_set 0 = true := hprev 0 (by decide)
    rw [captureLoop_second _ _ h0 hi]; simp [assignMarker]

/-! ## Calibration theorems -/

/-- C1: for every sampled byte pixel, the window that a left click stores for the first
unset marker has `low[c] <= high[c]` on the three channels, non-negative lower bounds
(stored and before narrowing), and a hue upper bound equal to 255 when
`sample.hue + 8 > 150` and to `sample.hue + 8` otherwise. -/
theorem window_ordered_hue_snap (hsv_img : Int → Int → Vec3) (x y flags : Int) (g : Globals)
    (i : Fin 2) (hbyte : (hsv_img y x).IsByte) (hi : g.color_set i = false)
    (hprev : ∀ j : Fin 2, j < i → g.color_set j = true) :
    ((mouse_callback hsv_img EVENT_LBUTTONDOWN x y flags g).color_ranges i).low.v0
        ≤ ((mouse_callback hsv_img EVENT_LBUTTONDOWN x y flags g).color_ranges i).high.v0 ∧
    ((mouse_callback hsv_img EVENT_LBUTTONDOWN x y flags g).color_ranges i).low.v1
        ≤ ((mouse_callback hsv_img EVENT_LBUTTONDOWN x y flags g).color_ranges i).high.v1 ∧
    ((mouse_callback hsv_img EVENT_LBUTTONDOWN x y flags g).color_ranges i).low.v2
        ≤ ((mouse_callback hsv_img EVENT_LBUTTONDOWN x y flags g).color_ranges i).high.v2 ∧
    0 ≤ ((mouse_callback hsv_img EVENT_LBUTTONDOWN x y flags g).color_ranges i).low.v0 ∧
    0 ≤ ((mouse_callback hsv_img EVENT_LBUTTONDOWN x y flags g).color_ranges i).low.v1 ∧
    0 ≤ ((mouse_callback hsv_img EVENT_LBUTTONDOWN x y flags g).color_ranges i).low.v2 ∧
    0 ≤ (lowArgs (hsv_img y x)).v0 ∧ 0 ≤ (lowArgs (hsv_img y x)).v1 ∧
    0 ≤ (lowArgs (hsv_img y x)).v2 ∧
    ((hsv_img y x).v0 + 8 > 150 →
      ((mouse_callback hsv_img EVENT_LBUTTONDOWN x y flags g).color_ranges i).high.v0 = 255) ∧
    (¬ (hsv_img y x).v0 + 8 > 150 →
      ((mouse_callback hsv_img EVENT_LBUTTONDOWN x y flags g).color_ranges i).high.v0
        = (hsv_img y x).v0 + 8) := by
  rw [mouse_callback_stores hsv_img x y flags g i hi hprev]
  obtain ⟨⟨a0, a1⟩, ⟨b0, b1⟩, ⟨c0, c1⟩⟩ := hbyte
  simp only [windowOf, Vec3b, toUchar, lowArgs, highArgs]
  refine ⟨?_, ?_, ?_, ?_, ?_, ?_, ?_, ?_, ?_, ?_, ?_⟩ <;> split_ifs <;> omega

/-- Witness of C1 on the first click of a session at a pixel `(200, 10, 250)`. -/
theorem window_ordered_hue_snap_witness :
    (Vec3.mk 200 10 250).IsByte ∧ Globals.initial.color_set 0 = false ∧
    ((mouse_callback (fun _ _ => ⟨200, 10, 250⟩) EVENT_LBUTTONDOWN 3 4 0
        Globals.initial).color_ranges 0).high.v0 = 255 :=
  ⟨by decide, rfl,
   (window_ordered_hue_snap (fun _ _ => ⟨200, 10, 250⟩) 3 4 0 Globals.initial 0
      (by decide) rfl (fun j hj => absurd hj (Fin.not_lt_zero j))).2.2.2.2.2.2.2.2.2.1 (by decide)⟩

/-- C10: for every sampled byte pixel, each of the six bounds computed by `mouse_callback`
lies in `[0, 255]`, the stored bytes equal the computed bounds (narrowing loses nothing),
and the stored window of the first unset marker has width at least 8 on hue and at least
80 on saturation and value, hence strictly positive width on every channel. -/
theorem window_never_degenerate (hsv_img : Int → Int → Vec3) (x y flags : Int) (g : Globals)
    (i : Fin 2) (hbyte : (hsv_img y x).IsByte) (hi : g.color_set i = false)
    (hprev : ∀ j : Fin 2, j < i → g.color_set j = true) :
    ((lowArgs (hsv_img y x)).IsByte ∧ (highArgs (hsv_img y x)).IsByte) ∧
    ((mouse_callback hsv_img EVENT_LBUTTONDOWN x y flags g).color_ranges i).low
        = lowArgs (hsv_img y x) ∧
    ((mouse_callback hsv_img EVENT_LBUTTONDOWN x y flags g).color_ranges i).high
        = highArgs (hsv_img y x) ∧
    ((mouse_callback hsv_img EVENT_LBUTTONDOWN x y flags g).color_ranges i).high.v0
        - ((mouse_callback hsv_img EVENT_LBUTTONDOWN x y flags g).color_ranges i).low.v0 ≥ 8 ∧
    ((mouse_callback hsv_img EVENT_LBUTTONDOWN x y flags g).color_ranges i).high.v1
        - ((mouse_callback hsv_img EVENT_LBUTTONDOWN x y flags g).color_ranges i).low.v1 ≥ 80 ∧
    ((mouse_callback hsv_img EVENT_LBUTTONDOWN x y flags g).color_ranges i).high.v2
        - ((mouse_callback hsv_img EVENT_LBUTTONDOWN x y flags g).color_ranges i).low.v2 ≥ 80 ∧
    ((mouse_callback hsv_img EVENT_LBUTTONDOWN x y flags g).color_ranges i).low.v0
        < ((mouse_callback hsv_img EVENT_LBUTTONDOWN x y flags g).color_ranges i).high.v0 ∧
    ((mouse_callback hsv_img EVENT_LBUTTONDOWN x y flags g).color_ranges i).low.v1
        < ((mouse_callback hsv_img EVENT_LBUTTONDOWN x y flags g).color_ranges i).high.v1 ∧
    ((mouse_callback hsv_img EVENT_LBUTTONDOWN x y flags g).color_ranges i).low.v2
        < ((mouse_callback hsv_img EVENT_LBUTTONDOWN x y flags g).color_ranges i).high.v2 := by
  rw [mouse_callback_stores hsv_img x y flags g i hi hprev]
  obtain ⟨⟨a0, a1⟩, ⟨b0, b1⟩, ⟨c0, c1⟩⟩ := hbyte
  have hl : (lowArgs (hsv_img y x)).IsByte := by
    simp only [Vec3.IsByte, lowArgs]
    refine ⟨⟨?_, ?_⟩, ⟨?_, ?_⟩, ⟨?_, ?_⟩⟩ <;> split_ifs <;> omega
  have hh : (highArgs (hsv_img y x)).IsByte := by
    simp only [Vec3.IsByte, highArgs]
    refine ⟨⟨?_, ?_⟩, ⟨?_, ?_⟩, ⟨?_, ?_⟩⟩ <;> split_ifs <;> omega
  have el : (windowOf (hsv_img y x)).low = lowArgs (hsv_img y x) := by
    obtain ⟨⟨p0, p1⟩, ⟨q0, q1⟩, ⟨r0, r1⟩⟩ := hl
    simp only [windowOf, Vec3b]
    rw [toUchar_of_byte _ p0 p1, toUchar_of_byte _ q0 q1, toUchar_of_byte _ r0 r1]
  have eh : (windowOf (hsv_img y x)).high = highArgs (hsv_img y x) := by
    obtain ⟨⟨p0, p1⟩, ⟨q0, q1⟩, ⟨r0, r1⟩⟩ := hh
    simp only [windowOf, Vec3b]
    rw [toUchar_of_byte _ p0 p1, toUchar_of_byte _ q0 q1, toUchar_of_byte _ r0 r1]
  refine ⟨⟨hl, hh⟩, el, eh, ?_⟩
  rw [el, eh]
  simp only [lowArgs, highArgs]
  refine ⟨?_, ?_, ?_, ?_, ?_, ?_⟩ <;> split_ifs <;> omega

/-- Witness of C10 at the extreme pixel `(255, 0, 255)` clicked as the second marker. -/
theorem window_never_degenerate_witness :
    (Vec3.mk 255 0 255).IsByte ∧
    ((mouse_callback (fun _ _ => ⟨255, 0, 255⟩) EVENT_LBUTTONDOWN 0 0 0
        (assignMarker ⟨9, 9, 9⟩ 0 Globals.initial)).color_ranges 1).low
      = lowArgs ⟨255, 0, 255⟩ :=
  ⟨by decide,
   (window_never_degenerate (fun _ _ => ⟨255, 0, 255⟩) 0 0 0
      (assignMarker ⟨9, 9, 9⟩ 0 Globals.initial) 1 (by decide) (by simp [assignMarker, Globals.initial])
      (fun j hj => by
        have hj0 : j = 0 := by omega
        subst hj0
        simp [assignMarker])).2.1⟩

/-- C3: once both markers are set, a further left click, whatever the image, the pixel
clicked and the game state, returns the globals unchanged: both colour windows, both
flags and `game_state`. -/
theorem capture_idempotent (hsv_img : Int → Int → Vec3) (x y flags : Int) (g : Globals)
    (h0 : g.color_set 0 = true) (h1 : g.color_set 1 = true) :
    mouse_callback hsv_img EVENT_LBUTTONDOWN x y flags g = g := by
  unfold mouse_callback
  simp only [ne_eq, not_true_eq_false, if_false]
  exact captureLoop_done _ g h0 h1

/-- Witness of C3: a third click in state `PLAYING` with both markers set. -/
theorem capture_idempotent_witness :
    mouse_callback (fun _ _ => ⟨1, 2, 3⟩) EVENT_LBUTTONDOWN 5 6 0
      { color_set := fun _ => true
        color_ranges := fun _ => ⟨⟨0, 0, 0⟩, ⟨8, 80, 80⟩⟩
        game_state := Game_state.PLAYING }
    = { color_set := fun _ => true
        color_ranges := fun _ => ⟨⟨0, 0, 0⟩, ⟨8, 80, 80⟩⟩
        game_state := Game_state.PLAYING } :=
  capture_idempotent (fun _ _ => ⟨1, 2, 3⟩) 5 6 0 _ rfl rfl

/-- C4: from a state with no marker set and `game_state = SETUP`, the first left click
assigns the window and flag of marker 0 only and leaves the window and flag of marker 1
and `game_state = SETUP`; the second left click assigns the window and flag of marker 1
only, leaves marker 0 as it was, and sets `game_state = START`. -/
theorem two_captures (img1 img2 : Int → Int → Vec3) (x1 y1 f1 x2 y2 f2 : Int) (g : Globals)
    (h0 : g.color_set 0 = false) (h1 : g.color_set 1 = false)
    (hst : g.game_state = Game_state.SETUP) :
    ((mouse_callback img1 EVENT_LBUTTONDOWN x1 y1 f1 g).color_ranges 0 = windowOf (img1 y1 x1) ∧
     (mouse_callback img1 EVENT_LBUTTONDOWN x1 y1 f1 g).color_set 0 = true ∧
     (mouse_callback img1 EVENT_LBUTTONDOWN x1 y1 f1 g).color_ranges 1 = g.color_ranges 1 ∧
     (mouse_callback img1 EVENT_LBUTTONDOWN x1 y1 f1 g).color_set 1 = false ∧
     (mouse_callback img1 EVENT_LBUTTONDOWN x1 y1 f1 g).game_state = Game_state.SETUP) ∧
    ((mouse_callback img2 EVENT_LBUTTONDOWN x2 y2 f2
        (mouse_callback img1 EVENT_LBUTTONDOWN x1 y1 f1 g)).color_ranges 1
        = windowOf (img2 y2 x2) ∧
     (mouse_callback img2 EVENT_LBUTTONDOWN x2 y2 f2
        (mouse_callback img1 EVENT_LBUTTONDOWN x1 y1 f1 g)).color_set 1 = true ∧
     (mouse_callback img2 EVENT_LBUTTONDOWN x2 y2 f2
        (mouse_callback img1 EVENT_LBUTTONDOWN x1 y1 f1 g)).color_ranges 0
        = (mouse_callback img1 EVENT_LBUTTONDOWN x1 y1 f1 g).color_ranges 0 ∧
     (mouse_callback img2 EVENT_LBUTTONDOWN x2 y2 f2
        (mouse_callback img1 EVENT_LBUTTONDOWN x1 y1 f1 g)).color_set 0 = true ∧
     (mouse_callback img2 EVENT_LBUTTONDOWN x2 y2 f2
        (mouse_callback img1 EVENT_LBUTTONDOWN x1 y1 f1 g)).game_state = Game_state.START) := by
  have e1 : mouse_callback img1 EVENT_LBUTTONDOWN x1 y1 f1 g = assignMarker (img1 y1 x1) 0 g := by
    unfold mouse_callback
    simp only [ne_eq, not_true_eq_false, if_false]
    exact captureLoop_first _ g h0
  have s0 : (assignMarker (img1 y1 x1) 0 g).color_set 0 = true := by simp [assignMarker]
  have s1 : (assignMarker (img1 y1 x1) 0 g).color_set 1 = false := by simp [assignMarker, h1]
  have e2 : mouse_callback img2 EVENT_LBUTTONDOWN x2 y2 f2 (assignMarker (img1 y1 x1) 0 g)
      = assignMarker (img2 y2 x2) 1 (assignMarker (img1 y1 x1) 0 g) := by
    unfold mouse_callback
    simp only [ne_eq, not_true_eq_false, if_false]
    exact captureLoop_second _ _ s0 s1
  rw [e1, e2]
  refine ⟨⟨?_, s0, ?_, s1, ?_⟩, ?_, ?_, ?_, ?_, ?_⟩ <;> simp [assignMarker, hst]

/-- Witness of C4 from the initial globals of the program. -/
theorem two_captures_witness :
    Globals.initial.color_set 0 = false ∧ Globals.initial.color_set 1 = false ∧
    Globals.initial.game_state = Game_state.SETUP ∧
    (mouse_callback (fun _ _ => ⟨20, 200, 200⟩) EVENT_LBUTTONDOWN 1 1 0
      Globals.initial).game_state = Game_state.SETUP ∧
    (mouse_callback (fun _ _ => ⟨100, 90, 30⟩) EVENT_LBUTTONDOWN 2 2 0
      (mouse_callback (fun _ _ => ⟨20, 200, 200⟩) EVENT_LBUTTONDOWN 1 1 0
        Globals.initial)).game_state = Game_state.START :=
  ⟨rfl, rfl, rfl,
   (two_captures (fun _ _ => ⟨20, 200, 200⟩) (fun _ _ => ⟨100, 90, 30⟩) 1 1 0 2 2 0
      Globals.initial rfl rfl rfl).1.2.2.2.2,
   (two_captures (fun _ _ => ⟨20, 200, 200⟩) (fun _ _ => ⟨100, 90, 30⟩) 1 1 0 2 2 0
      Globals.initial rfl rfl rfl).2.2.2.2.2⟩

/-! ## Catcher position -/

theorem player_pos_exact_neg {α : Type} [LinearOrderedField α] (h θ : α) (hθ : θ < 0) :
    player_pos id h θ = 1 / 2 + 1 / 2 * (-θ / h) := by
  simp [player_pos, hθ]

theorem player_pos_exact_nonneg {α : Type} [LinearOrderedField α] (h θ : α) (hθ : 0 ≤ θ) :
    player_pos id h θ = 1 / 2 - 1 / 2 * (θ / h) := by
  simp [player_pos, not_lt.mpr hθ]

/-- Mirror law of the catcher position in exact arithmetic, for any divisor `h`. -/
theorem player_pos_mirror {α : Type} [LinearOrderedField α] (h θ : α) :
    player_pos id h (-θ) = 1 - player_pos id h θ := by
  rcases lt_trichotomy θ 0 with hθ | hθ | hθ
  · rw [player_pos_exact_neg h θ hθ, player_pos_exact_nonneg h (-θ) (by linarith)]
    ring
  · subst hθ
    rw [neg_zero, player_pos_exact_nonneg h 0 le_rfl]
    simp
    norm_num
  · rw [player_pos_exact_nonneg h θ hθ.le, player_pos_exact_neg h (-θ) (by linarith)]
    ring

/-- C5: over the reals (`f32 = id`, `float(M_PI_2)` replaced by `pi / 2`), for every `θ` in
`[-pi/2, pi/2]` the position at `-θ` is one minus the position at `θ`; the position at
`0` is `1/2`; the positions at `pi/2` and `-pi/2` are `0` and `1`, both in `{0, 1}`. -/
theorem player_pos_antisymmetric (θ : ℝ) (_hlo : -(Real.pi / 2) ≤ θ)
    (_hhi : θ ≤ Real.pi / 2) :
    player_pos id (Real.pi / 2) (-θ) = 1 - player_pos id (Real.pi / 2) θ ∧
    player_pos id (Real.pi / 2) 0 = 1 / 2 ∧
    (player_pos id (Real.pi / 2) (Real.pi / 2) = 0 ∨
      player_pos id (Real.pi / 2) (Real.pi / 2) = 1) ∧
    (player_pos id (Real.pi / 2) (-(Real.pi / 2)) = 0 ∨
      player_pos id (Real.pi / 2) (-(Real.pi / 2)) = 1) ∧
    player_pos id (Real.pi / 2) (Real.pi / 2) = 0 ∧
    player_pos id (Real.pi / 2) (-(Real.pi / 2)) = 1 := by
  have hpi : (0 : ℝ) < Real.pi / 2 := by linarith [Real.pi_pos]
  have hne : Real.pi / 2 ≠ 0 := ne_of_gt hpi
  have z : player_pos id (Real.pi / 2) (0 : ℝ) = 1 / 2 := by
    rw [player_pos_exact_nonneg _ 0 le_rfl]; simp
  have p : player_pos id (Real.pi / 2) (Real.pi / 2) = 0 := by
    rw [player_pos_exact_nonneg _ _ hpi.le, div_self hne]; norm_num
  have n : player_pos id (Real.pi / 2) (-(Real.pi / 2)) = 1 := by
    rw [player_pos_exact_neg _ _ (by linarith), neg_neg, div_self hne]; norm_num
  exact ⟨player_pos_mirror _ θ, z, Or.inl p, Or.inr n, p, n⟩

/-- Witness of C5 at `θ = pi / 4`. -/
theorem player_pos_antisymmetric_witness :
    -(Real.pi / 2) ≤ Real.pi / 4 ∧ Real.pi / 4 ≤ Real.pi / 2 ∧
    player_pos id (Real.pi / 2) (-(Real.pi / 4))
      = 1 - player_pos id (Real.pi / 2) (Real.pi / 4) :=
  ⟨by linarith [Real.pi_pos], by linarith [Real.pi_pos],
   (player_pos_antisymmetric (Real.pi / 4) (by linarith [Real.pi_pos])
      (by linarith [Real.pi_pos])).1⟩

/-- C6: over the reals the position is not clamped: it lies in `[0, 1]` for `θ` in
`[-pi/2, pi/2]`, is strictly negative for `θ > pi/2` and strictly greater than 1 for
`θ < -pi/2`. -/
theorem player_pos_unclamped (θ : ℝ) :
    (-(Real.pi / 2) ≤ θ → θ ≤ Real.pi / 2 →
      0 ≤ player_pos id (Real.pi / 2) θ ∧ player_pos id (Real.pi / 2) θ ≤ 1) ∧
    (Real.pi / 2 < θ → player_pos id (Real.pi / 2) θ < 0) ∧
    (θ < -(Real.pi / 2) → 1 < player_pos id (Real.pi / 2) θ) := by
  have hpi : (0 : ℝ) < Real.pi / 2 := by linarith [Real.pi_pos]
  refine ⟨fun hlo hhi => ?_, fun hgt => ?_, fun hlt => ?_⟩
  · rcases lt_or_le θ 0 with hθ | hθ
    · rw [player_pos_exact_neg _ _ hθ]
      have h1 : 0 ≤ -θ / (Real.pi / 2) := div_nonneg (by linarith) hpi.le
      have h2 : -θ / (Real.pi / 2) ≤ 1 := (div_le_one hpi).mpr (by linarith)
      constructor <;> linarith
    · rw [player_pos_exact_nonneg _ _ hθ]
      have h1 : 0 ≤ θ / (Real.pi / 2) := div_nonneg hθ hpi.le
      have h2 : θ / (Real.pi / 2) ≤ 1 := (div_le_one hpi).mpr hhi
      constructor <;> linarith
  · rw [player_pos_exact_nonneg _ _ (by linarith)]
    have h1 : 1 < θ / (Real.pi / 2) := (one_lt_div hpi).mpr hgt
    linarith
  · rw [player_pos_exact_neg _ _ (by linarith)]
    have h1 : 1 < -θ / (Real.pi / 2) := (one_lt_div hpi).mpr (by linarith)
    linarith

/-- Witness of C6 at `θ = pi` (beyond `pi / 2`) and `θ = -pi`. -/
theorem player_pos_unclamped_witness :
    Real.pi / 2 < Real.pi ∧ player_pos id (Real.pi / 2) Real.pi < 0 ∧
    -Real.pi < -(Real.pi / 2) ∧ 1 < player_pos id (Real.pi / 2) (-Real.pi) :=
  ⟨by linarith [Real.pi_pos],
   (player_pos_unclamped Real.pi).2.1 (by linarith [Real.pi_pos]),
   by linarith [Real.pi_pos],
   (player_pos_unclamped (-Real.pi)).2.2 (by linarith [Real.pi_pos])⟩

/-! ## Space key -/

/-- C7: a key-pressed event with the space key down leaves the whole state (game state,
score, fruit batch and every other variable) unchanged in `SETUP` and in `PLAYING`; in
`END` it sets `game_state = START` and nothing else; in `START` it sets
`game_state = PLAYING`. -/
theorem space_key_transitions {G : Type} (lib : Lib G) (now : ℚ) (g : Globals) (m : Locals G) :
    handleEvent lib ⟨EventType.KeyPressed, true, now⟩
        ({ g with game_state := Game_state.SETUP }, m)
      = ({ g with game_state := Game_state.SETUP }, m) ∧
    handleEvent lib ⟨EventType.KeyPressed, true, now⟩
        ({ g with game_state := Game_state.PLAYING }, m)
      = ({ g with game_state := Game_state.PLAYING }, m) ∧
    handleEvent lib ⟨EventType.KeyPressed, true, now⟩
        ({ g with game_state := Game_state.END }, m)
      = ({ g with game_state := Game_state.START }, m) ∧
    (handleEvent lib ⟨EventType.KeyPressed, true, now⟩
        ({ g with game_state := Game_state.START }, m)).1.game_state = Game_state.PLAYING := by
  refine ⟨?_, ?_, ?_, ?_⟩ <;> simp [handleEvent, spaceKey]

/-! ## Spawning a batch -/

theorem f32_natCast {G : Type} (lib : Lib G)
    (hf32 : ∀ n : Int, -2000 ≤ n → n ≤ 2000 → lib.f32 (n : ℚ) = (n : ℚ))
    (n : Nat) (hn : n ≤ 2000) : lib.f32 (n : ℚ) = (n : ℚ) := by
  have h := hf32 (n : Int) (by omega) (by omega)
  simpa using h

theorem f32_zero_sub_natCast {G : Type} (lib : Lib G)
    (hf32 : ∀ n : Int, -2000 ≤ n → n ≤ 2000 → lib.f32 (n : ℚ) = (n : ℚ))
    (n : Nat) (hn : n ≤ 2000) : lib.f32 (0 - (n : ℚ)) = -(n : ℚ) := by
  have h := hf32 (-(n : Int)) (by omega) (by omega)
  simpa using h

theorem spawnFruit_fresh {G : Type} (lib : Lib G)
    (hdraw : ∀ a b r, a ≤ b → a ≤ (lib.uniform_int a b r).1 ∧ (lib.uniform_int a b r).1 ≤ b)
    (hf32 : ∀ n : Int, -2000 ≤ n → n ≤ 2000 → lib.f32 (n : ℚ) = (n : ℚ)) (rng : G) :
    (spawnFruit lib rng).1.FreshlySpawned := by
  have key : ∀ (t s x y : Nat), t ≤ 7 → 100 ≤ s → s ≤ 300 → x ≤ 960 → 1 ≤ y → y ≤ 2000 →
      Fruit.FreshlySpawned
        { Fruit.ctor t (lib.f32 (s : ℚ)) with
          pos := (lib.f32 (x : ℚ), lib.f32 (0 - lib.f32 (y : ℚ))) } := by
    intro t s x y ht hs1 hs2 hx hy1 hy2
    rw [f32_natCast lib hf32 s (by omega), f32_natCast lib hf32 x (by omega),
      f32_natCast lib hf32 y hy2, f32_zero_sub_natCast lib hf32 y hy2]
    have a1 : (100 : ℚ) ≤ (s : ℚ) := by exact_mod_cast hs1
    have a2 : (s : ℚ) ≤ 300 := by exact_mod_cast hs2
    have a3 : (x : ℚ) ≤ 960 := by exact_mod_cast hx
    have a4 : (1 : ℚ) ≤ (y : ℚ) := by exact_mod_cast hy1
    have a5 : (y : ℚ) ≤ 2000 := by exact_mod_cast hy2
    have a6 : (0 : ℚ) ≤ (x : ℚ) := Nat.cast_nonneg x
    refine ⟨rfl, rfl, ?_, ⟨a6, a3⟩, ⟨?_, ?_⟩, ⟨a1, a2⟩⟩
    · show t < fruit_tex_size
      unfold fruit_tex_size; omega
    · show (-2000 : ℚ) ≤ -(y : ℚ)
      linarith
    · show -(y : ℚ) ≤ -1
      linarith
  have ht := fun r => hdraw 0 (fruit_tex_size - 1) r (Nat.zero_le _)
  have hs := fun r => hdraw fruit_speed_min fruit_speed_max r (by decide)
  have hx := fun r => hdraw 0 960 r (by decide)
  have hy := fun r => hdraw 1 fruit_height_max r (by decide)
  simp only [fruit_tex_size, fruit_speed_min, fruit_speed_max, fruit_height_max] at ht hs hx hy
  unfold spawnFruit
  simp only [fruit_tex_size, fruit_speed_min, fruit_speed_max, fruit_height_max]
  cases lib.rightToLeft
  · simp only [Bool.false_eq_true, if_false]
    exact key _ _ _ _ (ht _).2 (hs _).1 (hs _).2 (hx _).2 (hy _).1 (hy _).2
  · simp only [if_true]
    exact key _ _ _ _ (ht _).2 (hs _).1 (hs _).2 (hx _).2 (hy _).1 (hy _).2

theorem spawnLoop_length {G : Type} (lib : Lib G) (n : Nat) (fruits : List Fruit) (rng : G) :
    (spawnLoop lib n fruits rng).1.length = fruits.length + n := by
  induction n generalizing fruits rng with
  | zero => simp [spawnLoop]
  | succ k ih =>
    simp only [spawnLoop]
    rw [ih]
    simp
    omega

theorem spawnLoop_fresh {G : Type} (lib : Lib G)
    (hdraw : ∀ a b r, a ≤ b → a ≤ (lib.uniform_int a b r).1 ∧ (lib.uniform_int a b r).1 ≤ b)
    (hf32 : ∀ n : Int, -2000 ≤ n → n ≤ 2000 → lib.f32 (n : ℚ) = (n : ℚ))
    (n : Nat) (fruits : List Fruit) (rng : G) (hacc : ∀ e ∈ fruits, e.FreshlySpawned) :
    ∀ e ∈ (spawnLoop lib n fruits rng).1, e.FreshlySpawned := by
  induction n generalizing fruits rng with
  | zero => simpa [spawnLoop] using hacc
  | succ k ih =>
    simp only [spawnLoop]
    apply ih
    intro e he
    rcases List.mem_append.mp he with h | h
    · exact hacc e h
    · rw [List.mem_singleton] at h
      rw [h]
      exact spawnFruit_fresh lib hdraw hf32 rng

/-- C8: in state `START`, whatever the old score and batch, and for every random engine
whose draws from `[a, b]` lie in `[a, b]` (rounding to `float` being exact on integers up
to 2000), a key-pressed event with space down gives `game_state = PLAYING`, `score = 0`
and a batch of exactly 50 fruits built from the empty batch, each one not caught, of size
60 x 60, with `x` in `[0, 960]`, `y` in `[-2000, -1]` and fall speed in `[100, 300]`. -/
theorem start_spawns_fresh_batch {G : Type} (lib : Lib G) (now : ℚ) (g : Globals) (m : Locals G)
    (hdraw : ∀ a b r, a ≤ b → a ≤ (lib.uniform_int a b r).1 ∧ (lib.uniform_int a b r).1 ≤ b)
    (hf32 : ∀ n : Int, -2000 ≤ n → n ≤ 2000 → lib.f32 (n : ℚ) = (n : ℚ))
    (hst : g.game_state = Game_state.START) :
    (handleEvent lib ⟨EventType.KeyPressed, true, now⟩ (g, m)).1.game_state
        = Game_state.PLAYING ∧
    (handleEvent lib ⟨EventType.KeyPressed, true, now⟩ (g, m)).2.score = 0 ∧
    (handleEvent lib ⟨EventType.KeyPressed, true, now⟩ (g, m)).2.fruits.length = 50 ∧
    (handleEvent lib ⟨EventType.KeyPressed, true, now⟩ (g, m)).2.fruits
        = (spawnLoop lib fruits_num [] m.rng).1 ∧
    ∀ e ∈ (handleEvent lib ⟨EventType.KeyPressed, true, now⟩ (g, m)).2.fruits,
      e.caught = false ∧ e.size = (60, 60) ∧ (0 ≤ e.pos.1 ∧ e.pos.1 ≤ 960) ∧
      (-2000 ≤ e.pos.2 ∧ e.pos.2 ≤ -1) ∧ (100 ≤ e.falling_speed ∧ e.falling_speed ≤ 300) := by
  have hev : handleEvent lib ⟨EventType.KeyPressed, true, now⟩ (g, m)
      = ({ g with game_state := Game_state.PLAYING },
         { m with clock_start := now, score := 0,
                  fruits := (spawnLoop lib fruits_num [] m.rng).1,
                  rng := (spawnLoop lib fruits_num [] m.rng).2 }) := by
    simp [handleEvent, spaceKey, hst]
  rw [hev]
  refine ⟨rfl, rfl, ?_, rfl, ?_⟩
  · show (spawnLoop lib fruits_num [] m.rng).1.length = 50
    rw [spawnLoop_length]; rfl
  · intro e he
    have h := spawnLoop_fresh lib hdraw hf32 fruits_num [] m.rng (by simp) e he
    exact ⟨h.1, h.2.1, h.2.2.2.1, h.2.2.2.2.1, h.2.2.2.2.2⟩

/-! ## Largest contour -/

/-- Invariant of the selection loop started at index `i` with accumulator `(la, li)`: the
final area bounds `la` and every visited area; either the accumulator is returned as it
was, or the final index points, at offset `k`, to a contour whose area is the final
area, strictly above `la` and strictly above every contour before it. -/
theorem largestContourLoop_spec {C : Type} (area : C → ℚ) (cs : List C) (i : Nat) (la : ℚ)
    (li : Nat) :
    la ≤ (largestContourLoop area cs i (la, li)).1 ∧
    (∀ c ∈ cs, area c ≤ (largestContourLoop area cs i (la, li)).1) ∧
    (largestContourLoop area cs i (la, li) = (la, li) ∨
      ∃ k c, cs[k]? = some c ∧ (largestContourLoop area cs i (la, li)).2 = i + k ∧
        area c = (largestContourLoop area cs i (la, li)).1 ∧
        la < (largestContourLoop area cs i (la, li)).1 ∧
        ∀ j d, j < k → cs[j]? = some d →
          area d < (largestContourLoop area cs i (la, li)).1) := by
  induction cs generalizing i la li with
  | nil => simp [largestContourLoop]
  | cons c rest ih =>
    by_cases hgt : area c > la
    · have hstep : largestContourLoop area (c :: rest) i (la, li)
          = largestContourLoop area rest (i + 1) (area c, i) := by
        simp [largestContourLoop, hgt]
      rw [hstep]
      obtain ⟨h1, h2, h3⟩ := ih (i + 1) (area c) i
      refine ⟨le_trans hgt.le h1, ?_, Or.inr ?_⟩
      · intro d hd
        rcases List.mem_cons.mp hd with rfl | hd
        · exact h1
        · exact h2 d hd
      · rcases h3 with heq | ⟨k, d, hk, hidx, harea, hlt, hbefore⟩
        · refine ⟨0, c, by simp, ?_, ?_, ?_, ?_⟩
          · rw [heq]; rfl
          · rw [heq]
          · rw [heq]; exact hgt
          · intro j d hj; omega
        · refine ⟨k + 1, d, by simpa using hk, ?_, harea, lt_trans hgt hlt, ?_⟩
          · rw [hidx]; omega
          · intro j e hj hje
            cases j with
            | zero =>
              simp at hje
              rw [← hje]; exact hlt
            | succ j =>
              simp at hje
              exact hbefore j e (by omega) hje
    · have hstep : largestContourLoop area (c :: rest) i (la, li)
          = largestContourLoop area rest (i + 1) (la, li) := by
        simp [largestContourLoop, hgt]
      rw [hstep]
      obtain ⟨h1, h2, h3⟩ := ih (i + 1) la li
      have hc : area c ≤ la := not_lt.mp hgt
      refine ⟨h1, ?_, ?_⟩
      · intro d hd
        rcases List.mem_cons.mp hd with rfl | hd
        · exact le_trans hc h1
        · exact h2 d hd
      · rcases h3 with heq | ⟨k, d, hk, hidx, harea, hlt, hbefore⟩
        · exact Or.inl heq
        · refine Or.inr ⟨k + 1, d, by simpa using hk, ?_, harea, hlt, ?_⟩
          · rw [hidx]; omega
          · intro j e hj hje
            cases j with
            | zero =>
              simp at hje
              rw [← hje]; exact lt_of_le_of_lt hc hlt
            | succ j =>
              simp at hje
              exact hbefore j e (by omega) hje

/-- C9: for a non-empty list of contours with non-negative areas, `largest_contour_index`
is a valid index; the contour `c` at that index has an area at least that of every
contour, every contour before it has a strictly smaller area (lowest index on ties),
the index is 0 when all areas are 0, and the stored circle becomes the circle fitted to
`c`.  For an empty list the stored circle is returned unchanged. -/
theorem largest_contour_selected {C : Type} (area : C → ℚ) (circ : C → Circle)
    (contours : List C) (prev : Circle) (hne : contours ≠ [])
    (hpos : ∀ c ∈ contours, 0 ≤ area c) :
    largest_contour_index area contours < contours.length ∧
    (∃ c, contours[largest_contour_index area contours]? = some c ∧
      (∀ d ∈ contours, area d ≤ area c) ∧
      (∀ j d, j < largest_contour_index area contours → contours[j]? = some d →
        area d < area c) ∧
      trackMarker area circ contours prev = some (circ c)) ∧
    ((∀ d ∈ contours, area d = 0) → largest_contour_index area contours = 0) ∧
    trackMarker area circ [] prev = some prev := by
  obtain ⟨h1, h2, h3⟩ := largestContourLoop_spec area contours 0 0 0
  have hempty : contours.isEmpty = false := by
    cases contours with
    | nil => exact absurd rfl hne
    | cons c rest => rfl
  have main : ∃ c, contours[largest_contour_index area contours]? = some c ∧
      (∀ d ∈ contours, area d ≤ area c) ∧
      (∀ j d, j < largest_contour_index area contours → contours[j]? = some d →
        area d < area c) ∧
      ((∀ d ∈ contours, area d = 0) → largest_contour_index area contours = 0) := by
    rcases h3 with heq | ⟨k, c, hk, hidx, harea, hlt, hbefore⟩
    · have hidx : largest_contour_index area contours = 0 := by
        unfold largest_contour_index; rw [heq]
      have hmax : (largestContourLoop area contours 0 (0, 0)).1 = 0 := by rw [heq]
      cases contours with
      | nil => exact absurd rfl hne
      | cons c rest =>
        refine ⟨c, by rw [hidx]; simp, ?_, ?_, fun _ => hidx⟩
        · intro d hd
          have hd0 := h2 d hd
          rw [hmax] at hd0
          have hc0 := hpos c (List.mem_cons_self c rest)
          linarith
        · intro j d hj; omega
    · have hidx2 : largest_contour_index area contours = k := by
        unfold largest_contour_index; rw [hidx]; omega
      refine ⟨c, by rw [hidx2]; exact hk, ?_, ?_, ?_⟩
      · intro d hd
        rw [harea]; exact h2 d hd
      · intro j d hj hjd
        rw [harea]; exact hbefore j d (by omega) hjd
      · intro hall
        have hc := hall c (List.getElem?_mem hk)
        rw [harea] at hc
        rw [hc] at hlt
        exact absurd hlt (lt_irrefl _)
  obtain ⟨c, hc, hmax, hfirst, hzero⟩ := main
  refine ⟨?_, ⟨c, hc, hmax, hfirst, ?_⟩, hzero, ?_⟩
  · obtain ⟨hlt, _⟩ := List.getElem?_eq_some.mp hc
    exact hlt
  · unfold trackMarker
    rw [hempty, hc]
    rfl
  · rfl

/-! ## Scoring -/

theorem everOverlaps_caught {G : Type} (lib : Lib G) (tests : List (Rect × Int)) (e : Fruit)
    (b : Bool) : everOverlaps lib tests { e with caught := b } = everOverlaps lib tests e := by
  induction tests generalizing e with
  | nil => rfl
  | cons t rest ih =>
    simp only [everOverlaps]
    have hfall : fall lib t.2 { e with caught := b } = { fall lib t.2 e with caught := b } := rfl
    have hbox : fruitBox { e with caught := b } = fruitBox e := rfl
    rw [hfall, hbox, ih]

theorem everOverlaps_fall_caught {G : Type} (lib : Lib G) (tests : List (Rect × Int))
    (dt : Int) (e : Fruit) (b : Bool) :
    everOverlaps lib tests (fall lib dt { e with caught := b })
      = everOverlaps lib tests (fall lib dt e) :=
  everOverlaps_caught lib tests (fall lib dt e) b

theorem fall_caught {G : Type} (lib : Lib G) (dt : Int) (e : Fruit) (b : Bool) :
    (fall lib dt { e with caught := b }).caught = b := rfl

theorem fruitStep_eq {G : Type} (lib : Lib G) (bb : Rect) (dt : Int) (e : Fruit) (score : Int) :
    fruitStep lib bb dt e score
      = (fall lib dt { e with caught := e.caught || lib.intersects bb (fruitBox e) },
         score + if (lib.intersects bb (fruitBox e) && !e.caught) = true then 1 else 0) := by
  obtain ⟨pos, size, tex, speed, caught⟩ := e
  unfold fruitStep
  cases caught
  · cases hhit : lib.intersects bb (fruitBox ⟨pos, size, tex, speed, false⟩) <;> simp
  · cases hhit : lib.intersects bb (fruitBox ⟨pos, size, tex, speed, true⟩) <;> simp

theorem fruitLoop_spec {G : Type} (lib : Lib G) (bb : Rect) (dt : Int) (fs : List Fruit)
    (score : Int) :
    (fruitLoop lib bb dt fs score).1
      = fs.map (fun e => fall lib dt
          { e with caught := e.caught || lib.intersects bb (fruitBox e) }) ∧
    (fruitLoop lib bb dt fs score).2
      = score + (fs.countP (fun e => lib.intersects bb (fruitBox e) && !e.caught) : Nat) := by
  induction fs generalizing score with
  | nil => simp [fruitLoop]
  | cons e rest ih =>
    simp only [fruitLoop, fruitStep_eq, List.map_cons, List.countP_cons]
    obtain ⟨h1, h2⟩ := ih (score +
      if (lib.intersects bb (fruitBox e) && !e.caught) = true then 1 else 0)
    refine ⟨by rw [h1], ?_⟩
    rw [h2]
    split_ifs <;> push_cast <;> ring

theorem bool_count_split (h c o : Bool) :
    ((if (h && !c) = true then 1 else 0) + (if (!(c || h) && o) = true then 1 else 0) : Nat)
      = if (!c && (h || o)) = true then 1 else 0 := by
  cases h <;> cases c <;> cases o <;> rfl

theorem countP_add_countP {α : Type} (p q r : α → Bool) (l : List α)
    (h : ∀ e ∈ l, (if p e = true then 1 else 0) + (if q e = true then 1 else 0)
      = (if r e = true then 1 else 0 : Nat)) :
    l.countP p + l.countP q = l.countP r := by
  induction l with
  | nil => simp
  | cons a rest ih =>
    have ha := h a (List.mem_cons_self a rest)
    have hrest := ih (fun e he => h e (List.mem_cons_of_mem a he))
    simp only [List.countP_cons]
    omega

theorem updateFrame_playing {G : Type} (lib : Lib G) (inp : FrameInput) (s : Globals × Locals G)
    (hgs : s.1.game_state = Game_state.PLAYING) :
    (updateFrame lib inp s).2.fruits
      = (fruitLoop lib (basketBox lib inp.angle) inp.time_elapsed s.2.fruits s.2.score).1 ∧
    (updateFrame lib inp s).2.score
      = (fruitLoop lib (basketBox lib inp.angle) inp.time_elapsed s.2.fruits s.2.score).2 := by
  simp [updateFrame, hgs, playingCase]

theorem updateFrame_idle {G : Type} (lib : Lib G) (inp : FrameInput) (s : Globals × Locals G)
    (hgs : s.1.game_state ≠ Game_state.PLAYING) :
    (updateFrame lib inp s).2.fruits = s.2.fruits ∧
    (updateFrame lib inp s).2.score = s.2.score := by
  unfold updateFrame
  cases h : s.1.game_state <;> simp_all

theorem collisionTests_playing {G : Type} (lib : Lib G) (inp : FrameInput)
    (rest : List FrameInput) (s : Globals × Locals G)
    (hgs : s.1.game_state = Game_state.PLAYING) :
    collisionTests lib (inp :: rest) s
      = (basketBox lib inp.angle, inp.time_elapsed)
          :: collisionTests lib rest (updateFrame lib inp s) := by
  simp [collisionTests, hgs]

theorem collisionTests_idle {G : Type} (lib : Lib G) (inp : FrameInput)
    (rest : List FrameInput) (s : Globals × Locals G)
    (hgs : s.1.game_state ≠ Game_state.PLAYING) :
    collisionTests lib (inp :: rest) s = collisionTests lib rest (updateFrame lib inp s) := by
  cases h : s.1.game_state <;> simp_all [collisionTests]

/-- From any state: the score gained along a run is the number of fruits not yet caught
whose box meets the basket box at one of the collision tests of the run, and the fruits
caught at the end are those caught at the start or met at one of the tests. -/
theorem runFrames_score {G : Type} (lib : Lib G) (inputs : List FrameInput)
    (s : Globals × Locals G) :
    (runFrames lib inputs s).2.score
      = s.2.score + (s.2.fruits.countP
          (fun e => !e.caught && everOverlaps lib (collisionTests lib inputs s) e) : Nat) ∧
    (runFrames lib inputs s).2.fruits.countP (fun e => e.caught)
      = s.2.fruits.countP
          (fun e => e.caught || everOverlaps lib (collisionTests lib inputs s) e) := by
  induction inputs generalizing s with
  | nil => simp [runFrames, collisionTests, everOverlaps]
  | cons inp rest ih =>
    obtain ⟨ih1, ih2⟩ := ih (updateFrame lib inp s)
    simp only [runFrames]
    by_cases hgs : s.1.game_state = Game_state.PLAYING
    · obtain ⟨hf, hsc⟩ := updateFrame_playing lib inp s hgs
      obtain ⟨lf, lsc⟩ := fruitLoop_spec lib (basketBox lib inp.angle) inp.time_elapsed
        s.2.fruits s.2.score
      rw [collisionTests_playing lib inp rest s hgs]
      rw [ih1, ih2, hf, hsc, lf, lsc, List.countP_map, List.countP_map]
      constructor
      · rw [add_assoc, ← Nat.cast_add]
        congr 2
        apply countP_add_countP
        intro e _
        simp only [Function.comp, everOverlaps, everOverlaps_fall_caught, fall_caught]
        exact bool_count_split _ _ _
      · apply List.countP_congr
        intro e _
        simp only [Function.comp, everOverlaps, everOverlaps_fall_caught, fall_caught]
        rw [Bool.or_assoc]
    · obtain ⟨hf, hsc⟩ := updateFrame_idle lib inp s hgs
      rw [collisionTests_idle lib inp rest s hgs, ih1, ih2, hf, hsc]
      exact ⟨rfl, rfl⟩

/-- C2: from a state with score 0 and no fruit caught, after any sequence of loop
iterations (any angles, instants and time steps) the score equals the number of fruits of
the batch whose box intersects the basket box at the collision test of at least one
iteration in state `PLAYING`; each such fruit counts once.  It also equals the number of
fruits flagged `caught` at the end and never exceeds the size of the batch. -/
theorem score_counts_distinct_overlaps {G : Type} (lib : Lib G) (inputs : List FrameInput)
    (s : Globals × Locals G) (hscore : s.2.score = 0)
    (huncaught : ∀ e ∈ s.2.fruits, e.caught = false) :
    (runFrames lib inputs s).2.score
      = ((s.2.fruits.filter (everOverlaps lib (collisionTests lib inputs s))).length : Nat) ∧
    (runFrames lib inputs s).2.score
      = (((runFrames lib inputs s).2.fruits.filter (fun e => e.caught)).length : Nat) ∧
    (runFrames lib inputs s).2.score ≤ (s.2.fruits.length : Nat) := by
  obtain ⟨h1, h2⟩ := runFrames_score lib inputs s
  have e1 : s.2.fruits.countP
      (fun e => !e.caught && everOverlaps lib (collisionTests lib inputs s) e)
      = s.2.fruits.countP (everOverlaps lib (collisionTests lib inputs s)) := by
    apply List.countP_congr
    intro e he
    simp [huncaught e he]
  have e2 : s.2.fruits.countP
      (fun e => e.caught || everOverlaps lib (collisionTests lib inputs s) e)
      = s.2.fruits.countP (everOverlaps lib (collisionTests lib inputs s)) := by
    apply List.countP_congr
    intro e he
    simp [huncaught e he]
  rw [h1, hscore, e1, zero_add, ← List.countP_eq_length_filter, ← List.countP_eq_length_filter,
    h2, e2]
  refine ⟨rfl, rfl, ?_⟩
  exact_mod_cast List.countP_le_length _

/-! ## Witnesses on the concrete instances -/

theorem exactLib_draw_range (a b r : Nat) (h : a ≤ b) :
    a ≤ (exactLib.uniform_int a b r).1 ∧ (exactLib.uniform_int a b r).1 ≤ b := by
  have hlt := Nat.mod_lt r (show b - a + 1 > 0 by omega)
  simp only [exactLib]
  omega

/-- Witness of C2: in the demo round the first fruit overlaps the basket during all three
iterations and the score is 1. -/
theorem score_counts_distinct_overlaps_witness :
    demoPlaying.2.score = 0 ∧ (∀ e ∈ demoPlaying.2.fruits, e.caught = false) ∧
    (runFrames exactLib demoInputs demoPlaying).2.score = 1 := by
  have hunc : ∀ e ∈ demoPlaying.2.fruits, e.caught = false := by
    intro e he
    simp only [demoPlaying, List.mem_cons, List.mem_singleton, List.not_mem_nil,
      or_false] at he
    rcases he with rfl | rfl | rfl <;> rfl
  refine ⟨rfl, hunc, ?_⟩
  rw [(score_counts_distinct_overlaps exactLib demoInputs demoPlaying rfl hunc).1]
  norm_num [updateFrame, playingCase, fruitLoop, fruitStep, fall, demoInputs,
    demoPlaying, exactLib, sfmlIntersects, basketBox, basketPos, player_pos, fruitBox,
    Fruit.ctor, game_window_width, game_window_height, time_limit, M_PI_2, collisionTests,
    everOverlaps, List.filter]

/-- Witness of C8: the start command in the demo session, with exact arithmetic and the
counter-based engine. -/
theorem start_spawns_fresh_batch_witness :
    demoStart.1.game_state = Game_state.START ∧ demoStart.2.score = 7 ∧
    (handleEvent exactLib ⟨EventType.KeyPressed, true, 5⟩ demoStart).2.score = 0 ∧
    (handleEvent exactLib ⟨EventType.KeyPressed, true, 5⟩ demoStart).2.fruits.length = 50 :=
  ⟨rfl, rfl,
   (start_spawns_fresh_batch exactLib 5 demoStart.1 demoStart.2 exactLib_draw_range
      (fun _ _ _ => rfl) rfl).2.1,
   (start_spawns_fresh_batch exactLib 5 demoStart.1 demoStart.2 exactLib_draw_range
      (fun _ _ _ => rfl) rfl).2.2.1⟩

/-- Witness of C9: among areas `2, 5, 5, 1` the selected index is valid. -/
theorem largest_contour_selected_witness :
    demoContours ≠ [] ∧ (∀ c ∈ demoContours, (0 : ℚ) ≤ c) ∧
    largest_contour_index (fun a : ℚ => a) demoContours < 4 ∧
    largest_contour_index (fun a : ℚ => a) demoContours = 1 := by
  have hpos : ∀ c ∈ demoContours, (0 : ℚ) ≤ c := by
    intro c hc
    simp only [demoContours, List.mem_cons, List.mem_singleton, List.not_mem_nil,
      or_false] at hc
    rcases hc with rfl | rfl | rfl | rfl <;> norm_num
  refine ⟨by simp [demoContours], hpos, ?_, ?_⟩
  · exact (largest_contour_selected (fun a : ℚ => a) (fun a => ⟨(a, a), a⟩) demoContours
      ⟨(0, 0), 0⟩ (by simp [demoContours]) hpos).1
  · norm_num [largest_contour_index, largestContourLoop, demoContours]

end FruitCatcher
